import Mathlib

/-!
Verification development for the build-tool target core (`blade/target.py`).

The Python source is shallowly embedded: every function below is a direct
translation of the corresponding Python routine, operating on `String`
(manipulated through its `List Char` data so that all definitions are
kernel-executable).  External collaborator modules (`blade.util`,
`blade.config`, `blade.console`, `blade.target_pattern`, the build manager)
are not part of the analysed source; their values enter as explicit
parameters, and the diagnostic sink is modelled by returning the list of
emitted diagnostics.

Simplifications that do not affect any stated property:
* `\w` of the Python regexes is read as ASCII alphanumeric or underscore;
* Python's `$` anchor is read as end-of-string (no trailing-newline case);
* `str.strip()` uses the ASCII whitespace classifier.
-/

namespace Blade

/-! ### Generic string helpers (Python semantics, on `List Char`) -/

/-- `lpre p l` : is `p` a prefix of `l` (char lists). -/
def lpre : List Char → List Char → Bool
  | [], _ => true
  | _ :: _, [] => false
  | a :: as, b :: bs => a = b && lpre as bs

/-- Python `sub in s` for char lists: `sub` occurs contiguously in `l`. -/
def lsub (sub : List Char) : List Char → Bool
  | [] => sub.isEmpty
  | c :: cs => lpre sub (c :: cs) || lsub sub cs

/-- Python substring containment `sub in s`. -/
def pyIn (sub s : String) : Bool := lsub sub.data s.data

/-- Python `s.startswith(pre)`. -/
def strStartsWith (s pre : String) : Bool := lpre pre.data s.data

/-- Python `s.endswith(suf)`. -/
def strEndsWith (s suf : String) : Bool := lpre suf.data.reverse s.data.reverse

/-- Python slicing `s[n:]`. -/
def strDrop (s : String) (n : Nat) : String := String.mk (s.data.drop n)

/-- Python `s.rstrip(':')`. -/
def rstripColon (s : String) : String :=
  String.mk ((s.data.reverse.dropWhile (fun c => c = ':')).reverse)

/-- Python `s.count(c)` for a single-character needle. -/
def countChar (c : Char) (s : String) : Nat :=
  (s.data.filter (fun x => x = c)).length

/-- Python `s.strip()`: remove leading and trailing whitespace. -/
def pyStrip (s : String) : String :=
  String.mk (((s.data.dropWhile Char.isWhitespace).reverse.dropWhile
      Char.isWhitespace).reverse)

/-- Python string comparison: lexicographic on code points. -/
def lexLe : List Char → List Char → Bool
  | [], _ => true
  | _ :: _, [] => false
  | a :: as, b :: bs =>
    decide (a.toNat < b.toNat) || (decide (a.toNat = b.toNat) && lexLe as bs)

theorem lexLe_total : ∀ x y : List Char, lexLe x y = true ∨ lexLe y x = true
  | [], _ => Or.inl rfl
  | _ :: _, [] => Or.inr rfl
  | a :: as, b :: bs => by
    rcases Nat.lt_trichotomy a.toNat b.toNat with h | h | h
    · left; simp [lexLe, h]
    · rcases lexLe_total as bs with ih | ih
      · left; simp [lexLe, h, ih]
      · right; simp [lexLe, h.symm, ih]
    · right; simp [lexLe, h]

theorem lexLe_trans : ∀ x y z : List Char,
    lexLe x y = true → lexLe y z = true → lexLe x z = true
  | [], _, _, _, _ => rfl
  | a :: as, [], _, h, _ => by simp [lexLe] at h
  | a :: as, b :: bs, [], _, h2 => by simp [lexLe] at h2
  | a :: as, b :: bs, c :: cs, h, h2 => by
    simp only [lexLe, Bool.or_eq_true, Bool.and_eq_true, decide_eq_true_eq] at h h2 ⊢
    rcases h with h | ⟨he, h⟩ <;> rcases h2 with h2 | ⟨h2e, h2⟩
    · exact Or.inl (Nat.lt_trans h h2)
    · exact Or.inl (h2e ▸ h)
    · exact Or.inl (he ▸ h2)
    · exact Or.inr ⟨he.trans h2e, lexLe_trans as bs cs h h2⟩

theorem lexLe_antisymm : ∀ x y : List Char,
    lexLe x y = true → lexLe y x = true → x = y
  | [], [], _, _ => rfl
  | [], _ :: _, _, h2 => by simp [lexLe] at h2
  | _ :: _, [], h, _ => by simp [lexLe] at h
  | a :: as, b :: bs, h, h2 => by
    simp only [lexLe, Bool.or_eq_true, Bool.and_eq_true, decide_eq_true_eq] at h h2
    rcases h with h | ⟨he, h⟩ <;> rcases h2 with h2 | ⟨h2e, h2⟩ <;> try omega
    have hab : a = b := Char.ext (UInt32.ext he)
    exact hab ▸ congrArg (List.cons a) (lexLe_antisymm as bs h h2)

/-- Python `s1 <= s2` on strings (code-point lexicographic). -/
def strLe (a b : String) : Prop := lexLe a.data b.data = true

instance : DecidableRel strLe := fun a b =>
  inferInstanceAs (Decidable (lexLe a.data b.data = true))

/-- Python `s.split(c)` for a one-character separator. -/
def splitOnChar (c : Char) : List Char → List (List Char)
  | [] => [[]]
  | x :: xs =>
    let r := splitOnChar c xs
    if x = c then [] :: r
    else
      match r with
      | [] => [[x]]
      | h :: t => (x :: h) :: t

/-- `'/'.join(parts)` (used by `os.path.normpath`). -/
def joinSlash : List String → String
  | [] => ""
  | [x] => x
  | x :: y :: xs => x ++ "/" ++ joinSlash (y :: xs)

/-! ### `os.path` models (POSIX flavour, as used by the source) -/

/-- `os.path.normpath` (posixpath): collapse `.`, empty and `..` components,
keeping the special one- or two-slash absolute prefixes. -/
def normpath (p : String) : String :=
  if p = "" then "." else
  let initialSlashes : Nat :=
    if strStartsWith p "/" then
      if strStartsWith p "//" && !strStartsWith p "///" then 2 else 1
    else 0
  let comps := (splitOnChar '/' p.data).map String.mk
  let newComps := comps.foldl (fun acc comp =>
    if comp = "" || comp = "." then acc
    else if !(comp = "..") || (decide (initialSlashes = 0) && acc.isEmpty)
        || (!acc.isEmpty && acc.getLast? = some "..") then acc ++ [comp]
    else if !acc.isEmpty then acc.dropLast
    else acc) ([] : List String)
  let res := String.mk (List.replicate initialSlashes '/') ++ joinSlash newComps
  if res = "" then "." else res

/-- `os.path.join` (posixpath), two-argument form. -/
def pathJoin (a b : String) : String :=
  if strStartsWith b "/" then b
  else if a = "" || strEndsWith a "/" then a ++ b
  else a ++ "/" ++ b

/-! ### The target-key parser (`_TARGET_RE`, `_check_path`, `_parse_target`) -/

/-- Character class `[\w./+-]` of the path component of `_TARGET_RE`. -/
def isPathChar (c : Char) : Bool :=
  c.isAlphanum || c = '_' || c = '.' || c = '/' || c = '+' || c = '-'

/-- Character class `[\w.+-]` of the name component of `_TARGET_RE`. -/
def isNameChar (c : Char) : Bool :=
  c.isAlphanum || c = '_' || c = '.' || c = '+' || c = '-'

/-- Split a char list at the first occurrence of `c` (the separator removed). -/
def splitFirst (c : Char) : List Char → Option (List Char × List Char)
  | [] => none
  | x :: xs =>
    if x = c then some ([], xs)
    else
      match splitFirst c xs with
      | none => none
      | some (pre, post) => some (x :: pre, post)

/-- Anchored match of `_TARGET_RE = (?P<path>((//)?[\w./+-]+)?:|#)(?P<name>[\w.+-]*)$`
against a whole string, returning the `path` and `name` groups.  Since `:` is
not in the path character class, the path alternative matches exactly the
(possibly empty) run of path characters up to the first `:`; the `#`
alternative can only fire on a leading `#`. -/
def targetReMatch (s : String) : Option (String × String) :=
  match s.data with
  | [] => none
  | c :: rest =>
    if c = '#' then
      if rest.all isNameChar then some ("#", String.mk rest) else none
    else
      match splitFirst ':' (c :: rest) with
      | none => none
      | some (pre, post) =>
        if pre.all isPathChar && post.all isNameChar then
          some (String.mk (pre ++ [':']), String.mk post)
        else none

/-- `_check_path`: error messages for a parsed directory component.  The check
for `..` is a plain substring test, and the leading `//` is stripped first. -/
def check_path (path : String) : List String :=
  let path := if strStartsWith path "//" then strDrop path 2 else path
  (if strStartsWith path "/" then ["absolute path is not allowed"] else []) ++
    (if pyIn ".." path then ["parent path \"..\" is not allowed"] else [])

/-- `_parse_target`: parse a dep reference into `(path, name, error_messages)`;
an empty message list stands for the Python `None` (success).  The
memoization cache of the source is pure caching and is not modelled. -/
def parse_target (dep : String) : String × String × List String :=
  match targetReMatch dep with
  | none =>
    ("", "",
      [if countChar ':' dep > 1 then "format error, missing \",\" between targets?"
       else "format error"])
  | some (pathGroup, name) =>
    let path := rstripColon pathGroup
    let msgs := check_path path ++ (if name = "" then ["empty name"] else [])
    if msgs ≠ [] then ("", "", msgs)
    else (if path ≠ "" then normpath path else path, name, [])

/-! ### Dependency resolver state (`Target` fields touched by dep resolution)

The relevant slice of a `Target`: its directory (`self.path`), the ordered
dependency-key sequence (`self.deps`), the implicit-dependency set
(`self._implicit_deps`, modelled as a duplicate-free list), the set of
system-library keys registered into the global target database by
`_add_system_library` (the database itself holds `SystemLibrary` objects;
only key presence matters here), and the error diagnostics emitted through
`self.error`. -/
structure DepState where
  path : String
  deps : List String
  implicit_deps : List String
  registered : List String
  errors : List String
deriving DecidableEq

/-- A freshly constructed target in directory `p` (before `_init_target_deps`). -/
def freshDepState (p : String) : DepState :=
  { path := p, deps := [], implicit_deps := [], registered := [], errors := [] }

/-- `_add_system_library`: register a `SystemLibrary` under `key` unless the
target database already has an entry for it. -/
def add_system_library (s : DepState) (key : String) : DepState :=
  if key ∈ s.registered then s else { s with registered := s.registered ++ [key] }

/-- `_unify_dep`: parse `dep` and resolve it to a key.  On parse errors the
messages are reported via `self.error` and `None` is returned; a `#` path
registers the system library; `//`-prefixed paths are repo-root-relative,
non-empty paths are joined to the target's directory, empty means the
target's own directory. -/
def unify_dep (s : DepState) (dep : String) : Option String × DepState :=
  let r := parse_target dep
  if r.2.2 ≠ [] then
    (none,
      { s with errors :=
          s.errors ++ r.2.2.map (fun m => "Invalid dependency \"" ++ dep ++ "\", " ++ m) })
  else if r.1 = "#" then
    (some ("#:" ++ r.2.1), add_system_library s ("#:" ++ r.2.1))
  else if strStartsWith r.1 "//" then
    (some (strDrop r.1 2 ++ ":" ++ r.2.1), s)
  else if r.1 ≠ "" then
    (some (pathJoin s.path r.1 ++ ":" ++ r.2.1), s)
  else
    (some (s.path ++ ":" ++ r.2.1), s)

/-- The key `_unify_dep` resolves `dep` to; it depends on the target only
through its directory. -/
def unify_key (path dep : String) : Option String :=
  (unify_dep (freshDepState path) dep).1

/-- The guarded append `if dkey not in self.deps: self.deps.append(dkey)`
shared by all three dependency-adding routines. -/
def append_dep (s : DepState) (k : String) : DepState :=
  if k ∈ s.deps then s else { s with deps := s.deps ++ [k] }

/-- One iteration of the `_init_target_deps` loop. -/
def init_dep_step (s : DepState) (d : String) : DepState :=
  match unify_dep s d with
  | (some dkey, s1) => append_dep s1 dkey
  | (none, s1) => s1

/-- `_init_target_deps`: unify every declared entry, appending new keys. -/
def init_target_deps (s : DepState) (deps : List String) : DepState :=
  deps.foldl init_dep_step s

/-- The `'//' + dep` prefixing at the top of the `_add_implicit_library` loop. -/
def rootify (dep : String) : String :=
  if !strStartsWith dep "//" && !strStartsWith dep "#" then "//" ++ dep else dep

/-- Python `set.add` on the model's duplicate-free list. -/
def set_add (l : List String) (k : String) : List String :=
  if k ∈ l then l else l ++ [k]

/-- `_add_implicit_library`: like `_init_target_deps` but each entry gets a
`//` prefix when needed, system-library keys are force-registered, and every
resolved key joins `_implicit_deps`.  NOTE: on a parse failure the source
executes `return` (not `continue`), abandoning the remaining entries. -/
def add_implicit_library (s : DepState) : List String → DepState
  | [] => s
  | dep :: rest =>
    let dep := rootify dep
    match unify_dep s dep with
    | (none, s1) => s1
    | (some dkey, s1) =>
      let s2 := if strStartsWith dkey "#" then add_system_library s1 dkey else s1
      let s3 := append_dep s2 dkey
      add_implicit_library { s3 with implicit_deps := set_add s3.implicit_deps dkey } rest

/-- `_add_location_reference_target`: the regex match object is modelled as
the pair of its two groups (key text, optional type-tag text).  The key is
unified and appended to `deps` when new; the `(key, type)` pair is
returned. -/
def add_location_reference_target (s : DepState) (m : String × Option String) :
    (Option String × String) × DepState :=
  let ty := pyStrip (m.2.getD "")
  match unify_dep s m.1 with
  | (some key, s1) => ((some key, ty), append_dep s1 key)
  | (none, s1) => ((none, ty), s1)

/-- A dependency-adding operation a target may perform after construction:
its declared-deps initialisation, an implicit-library addition, or the
resolution of a `$(location ...)` reference. -/
inductive DepOp where
  | initDeps (raw : List String)
  | addImplicit (raw : List String)
  | addLocation (m : String × Option String)
deriving DecidableEq

/-- Apply one dependency-adding operation for its state effect. -/
def runDepOp (s : DepState) : DepOp → DepState
  | DepOp.initDeps raw => init_target_deps s raw
  | DepOp.addImplicit raw => add_implicit_library s raw
  | DepOp.addLocation m => (add_location_reference_target s m).2

/-- Apply a sequence of dependency-adding operations. -/
def runDepOps (s : DepState) (ops : List DepOp) : DepState :=
  ops.foldl runDepOp s

/-! ### Diagnostics

The console collaborator is modelled by the list of diagnostics a routine
emits, in order.  A diagnostic records which console routine was invoked
(`console.debug/info/warning/error/fatal`), the key of the target it was
issued against, and the message text (the `_format_message` packaging of
source location and name around the text is represented by keeping the
emitter explicit). -/
inductive Level where
  | debug
  | info
  | warning
  | error
  | fatal
deriving DecidableEq

/-- One emitted diagnostic: console level, emitting target's key, message. -/
abbrev Diag := Level × String × String

/-! ### Visibility model (`_match_visibility`, `check_visibility`)

The wildcard matcher `target_pattern.match` lives in the external
`blade.target_pattern` module; it enters as the function parameter
`pmatch`. -/

/-- The slice of a `Target` used by visibility checking. -/
structure VTarget where
  path : String
  key : String
  visibility : List String
  visibility_is_default : Bool
  deps : List String
deriving DecidableEq

/-- `_match_visibility`: may `self` (the requester) depend on `dep`?
Same-directory targets always may; otherwise `PUBLIC`, an exact key match,
or a wildcard pattern match is required. -/
def match_visibility (pmatch : String → String → Bool) (self dep : VTarget) : Bool :=
  if self.path = dep.path then true
  else if "PUBLIC" ∈ dep.visibility then true
  else if self.key ∈ dep.visibility then true
  else dep.visibility.any (fun pattern => pmatch self.key pattern)

/-- Message of the visibility-violation diagnostic. -/
def notAllowedMsg (dep_id : String) : String :=
  "Not allowed to depend on \"//" ++ dep_id ++ "\" because of its visibility,"

/-- Follow-up message on a dependency whose visibility was defaulted. -/
def noExplicitVisibilityMsg : String :=
  "No explicit \"visibility\" declaration, defaults to private, see document for details"

/-- Follow-up message on a dependency whose visibility was declared. -/
def declaredHereMsg : String := "which is declared here"

/-- `check_visibility`: walk `self.deps` (looked up in the target database
`db`); every edge failing `_match_visibility` yields `self.error(...)`
followed by `dep.info(...)`, the info text depending on whether the
dependency's visibility was defaulted. -/
def check_visibility (pmatch : String → String → Bool) (db : String → VTarget)
    (self : VTarget) : List Diag :=
  self.deps.flatMap (fun dep_id =>
    let dep := db dep_id
    if match_visibility pmatch self dep then []
    else
      [(Level.error, self.key, notAllowedMsg dep_id),
       (Level.info, dep.key,
        if dep.visibility_is_default then noExplicitVisibilityMsg else declaredHereMsg)])

/-! ### Lazy build-code generation (`get_build_code`, `_get_target_file`,
`_get_target_files`)

`generate()` is abstract (each concrete target type overrides it); its
effect is modelled by the rule list `gen` it would write through
`_write_rule` into the freshly initialised buffer.  The ghost counter
`generate_calls` counts its invocations. -/
structure GenTarget where
  build_code : Option (List String)
  generate_calls : Nat
  targets : List (String × String)
  default_target : String
deriving DecidableEq

/-- `get_build_code`: populate the buffer by running `generate()` on first
call, afterwards return the cached buffer. -/
def get_build_code (gen : List String) (t : GenTarget) : List String × GenTarget :=
  match t.build_code with
  | none => (gen, { t with build_code := some gen, generate_calls := t.generate_calls + 1 })
  | some code => (code, t)

/-- `_get_target_file`: ensure rules were generated, then look up the label
(or the default target for an empty label). -/
def get_target_file (gen : List String) (t : GenTarget) (label : String) :
    String × GenTarget :=
  let t1 := (get_build_code gen t).2
  if label ≠ "" then
    ((t1.targets.find? (fun p => p.1 = label)).elim "" Prod.snd, t1)
  else (t1.default_target, t1)

/-- `_get_target_files`: ensure rules were generated, then return the sorted
set of all recorded output paths. -/
def get_target_files (gen : List String) (t : GenTarget) :
    List String × GenTarget :=
  let t1 := (get_build_code gen t).2
  (List.insertionSort strLe (t1.targets.map Prod.snd).dedup, t1)

/-- The three statement-buffer accessors a caller can go through. -/
inductive AccessOp where
  | direct
  | file (label : String)
  | files
deriving DecidableEq

/-- Run one accessor for its state effect. -/
def runAccess (gen : List String) (t : GenTarget) : AccessOp → GenTarget
  | AccessOp.direct => (get_build_code gen t).2
  | AccessOp.file label => (get_target_file gen t label).2
  | AccessOp.files => (get_target_files gen t).2

/-- Run a sequence of accessor calls. -/
def runAccesses (gen : List String) (t : GenTarget) (ops : List AccessOp) : GenTarget :=
  ops.foldl (runAccess gen) t

/-- A target as constructed: no buffer yet, `generate()` never invoked. -/
def freshGenTarget (tg : List (String × String)) (dflt : String) : GenTarget :=
  { build_code := none, generate_calls := 0, targets := tg, default_target := dflt }

/-! ### Source file validation (`_check_sources`) and the source ownership
registry (`Target.__src_target_map` manipulated by `_check_srcs`)

`os.path.exists` is a read-only filesystem probe and enters as the function
parameter `fileExists`. -/

/-- `\w` as used by the source regexes (ASCII reading). -/
def isWordChar (c : Char) : Bool := c.isAlphanum || c = '_'

/-- `os.path.splitext` (posix): split off the extension at the last dot of
the basename, unless the part of the basename before that dot consists only
of dots. -/
def splitext (p : String) : String × String :=
  let cs := p.data
  let baseRev := cs.reverse.takeWhile (fun c => c ≠ '/')
  let dirChars := cs.take (cs.length - baseRev.length)
  match splitFirst '.' baseRev with
  | none => (p, "")
  | some (extRev, preRev) =>
    if preRev.any (fun c => c ≠ '.') then
      (String.mk (dirChars ++ preRev.reverse), String.mk ('.' :: extRev.reverse))
    else (p, "")

/-- Does the suffix `t` match `\w+\.{ext}.+\.{ext}` up to the end of string?
All nondeterministic splits of the regex are tried; `.` excludes newline. -/
def concatTail (exts : List String) (t : List Char) : Bool :=
  (List.range t.length).any (fun i =>
    let w := t.take (i + 1)
    let rest := t.drop (i + 1)
    w.all isWordChar &&
      exts.any (fun e1 =>
        lpre ('.' :: e1.data) rest &&
          (let m := rest.drop (e1.data.length + 1)
           exts.any (fun e2 =>
             let tailLen := e2.data.length + 1
             decide (m.length ≥ tailLen + 1) &&
               lpre ('.' :: e2.data).reverse m.reverse &&
               (m.take (m.length - tailLen)).all (fun c => c ≠ '\n')))))

/-- `_is_likely_concatenated_filenames`: `re.search` of
`\w+\.{ext}.+\.{ext}$` (extensions treated literally, as the source escapes
`+`). -/
def is_likely_concatenated_filenames (s : String) (exts : List String) : Bool :=
  (List.range s.data.length).any (fun k => concatTail exts (s.data.drop k))

/-- `', '.join` (used for Python list reprs in messages). -/
def joinCommaSp : List String → String
  | [] => ""
  | [x] => x
  | x :: y :: xs => x ++ ", " ++ joinCommaSp (y :: xs)

/-- Python `repr` of a list of strings, as interpolated by `%s`. -/
def pyReprStrList (l : List String) : String :=
  "[" ++ joinCommaSp (l.map (fun e => "'" ++ e ++ "'")) ++ "]"

/-- The invalid-path error text of `_check_sources`. -/
def invalidPathMsg (file_kind src : String) : String :=
  "Invalid " ++ file_kind ++ " file path: " ++ src ++
    ". can only be relative path, and must in current directory or subdirectories."

/-- The invalid-extension error text of `_check_sources`. -/
def invalidNameMsg (file_kind src : String) (exts : List String) : String :=
  "Invalid " ++ file_kind ++ " file name: \"" ++ src ++ "\", must ends with " ++
    pyReprStrList exts

/-- The likely-missing-comma warning text of `_check_sources`. -/
def missingCommaMsg (src : String) : String :=
  "File \"" ++ src ++ "\" does not exist, missing \",\" between file names?"

/-- The duplicate-paths error text of `_check_sources`. -/
def dupMsg (file_kind : String) (dups : List String) : String :=
  "Duplicate " ++ file_kind ++ " file paths: " ++ pyReprStrList dups ++ " "

/-- Loop state of `_check_sources`: collected duplicates, the seen-source
set, and the diagnostics emitted so far. -/
structure SrcAcc where
  dups : List String
  srcset : List String
  diags : List Diag
deriving DecidableEq

/-- One iteration of the `_check_sources` loop body for source `src`. -/
def check_src_step (selfKey path file_kind : String) (exts : List String)
    (fileExists : String → Bool) (acc : SrcAcc) (src : String) : SrcAcc :=
  let acc :=
    if src ∈ acc.srcset then { acc with dups := acc.dups ++ [src] }
    else { acc with srcset := acc.srcset ++ [src] }
  let acc :=
    if pyIn ".." src || strStartsWith src "/" then
      { acc with diags := acc.diags ++ [(Level.error, selfKey, invalidPathMsg file_kind src)] }
    else acc
  if exts = [] then acc
  else
    let ext0 := (splitext src).2
    let ext := if ext0 ≠ "" then strDrop ext0 1 else ext0
    let acc :=
      if ext ∉ exts then
        { acc with diags := acc.diags ++ [(Level.error, selfKey, invalidNameMsg file_kind src exts)] }
      else acc
    let full_path := normpath (pathJoin path src)
    if !fileExists full_path && (ext ≠ "" && is_likely_concatenated_filenames src exts) then
      { acc with diags := acc.diags ++ [(Level.warning, selfKey, missingCommaMsg src)] }
    else acc

/-- `_check_sources`: per-source validation followed by the final
duplicate-paths error. -/
def check_sources (selfKey path file_kind : String) (files exts : List String)
    (fileExists : String → Bool) : List Diag :=
  let acc := files.foldl (check_src_step selfKey path file_kind exts fileExists)
    { dups := [], srcset := [], diags := [] }
  acc.diags ++
    (if acc.dups ≠ [] then [(Level.error, selfKey, dupMsg file_kind acc.dups)] else [])

/-- The source-ownership registry: normalized path to
`(owning target fullname, allows-duplicate flag)`, insertion-ordered. -/
abbrev SrcMap := List (String × String × Bool)

/-- The duplicate-claim message of `_check_srcs`. -/
def alreadyInSrcsMsg (src existingName : String) : String :=
  "\"" ++ src ++ "\" is already in srcs of \"" ++ existingName ++ "\""

/-- One ownership claim of `_check_srcs` for source `src` with normalized
path `full_src`, by the claimant `tgt = (fullname, allows-duplicates)`:
first claim is recorded; on a conflict the allowing owner is displaced,
and the policy diagnostic fires only out of the final `else` branch. -/
def claim_src (action : String) (m : SrcMap) (src full_src : String)
    (tgt : String × Bool) (selfKey : String) : SrcMap × List Diag :=
  match m.find? (fun p => p.1 = full_src) with
  | none => (m ++ [(full_src, tgt)], [])
  | some p =>
    let existing := p.2
    if existing = tgt then (m, [])
    else if existing.2 then
      (m.map (fun q => if q.1 = full_src then (full_src, tgt) else q), [])
    else if tgt.2 then (m, [])
    else
      (m,
        if action = "error" then [(Level.error, selfKey, alreadyInSrcsMsg src existing.1)]
        else if action = "warning" then [(Level.warning, selfKey, alreadyInSrcsMsg src existing.1)]
        else [])

/-- `_check_srcs`: validate the `srcs` attribute, then run every source
through the ownership registry. -/
def check_srcs (selfKey selfFullname path : String) (srcs exts : List String)
    (fileExists : String → Bool) (allow_duplicate : Bool) (action : String)
    (m : SrcMap) : SrcMap × List Diag :=
  let sdiags := check_sources selfKey path "source" srcs exts fileExists
  let st := srcs.foldl (fun (st : SrcMap × List Diag) src =>
    let full_src := normpath (pathJoin path src)
    let r := claim_src action st.1 src full_src (selfFullname, allow_duplicate) selfKey
    (r.1, st.2 ++ r.2)) (m, [])
  (st.1, sdiags ++ st.2)

/-! ### Fingerprint engine (`_fingerprint_entropy`, `fingerprint`)

The entropy record is a Python dict from string keys to values; values are
modelled by `PyVal` (the shapes occurring as target attributes).  A dict is
an insertion-ordered association list whose keys are pairwise distinct;
assignment overrides in place, new keys append. -/
inductive PyVal where
  | str : String → PyVal
  | strlist : List String → PyVal
  | int : Int → PyVal
  | bool : Bool → PyVal
deriving DecidableEq

/-- Decimal digits of a natural number, most significant first (fuel-based
so that it evaluates inside the kernel; 64 digits suffice for every value
produced here). -/
def natDigitsAux : Nat → Nat → List Char → List Char
  | 0, _, acc => acc
  | fuel + 1, n, acc =>
    let acc := Char.ofNat (48 + n % 10) :: acc
    if n < 10 then acc else natDigitsAux fuel (n / 10) acc

/-- Decimal rendering of a natural number. -/
def natRepr (n : Nat) : String := String.mk (natDigitsAux 64 n [])

/-- Python `repr` of an `int` (escape-free shapes only). -/
def intRepr : Int → String
  | Int.ofNat n => natRepr n
  | Int.negSucc n => "-" ++ natRepr (n + 1)

/-- Python `repr` of a `PyVal` (string escaping is irrelevant to every
property proved here and elided). -/
def PyVal.pyRepr : PyVal → String
  | PyVal.str s => "'" ++ s ++ "'"
  | PyVal.strlist l => pyReprStrList l
  | PyVal.int n => intRepr n
  | PyVal.bool b => if b then "True" else "False"

/-- An entropy dict: insertion-ordered `(key, value)` entries. -/
abbrev Dict := List (String × PyVal)

/-- Python `key in d`. -/
def hasKey (m : Dict) (k : String) : Bool := m.any (fun p => p.1 = k)

/-- Python `d[x.1] = x.2`: override in place, or append a new entry. -/
def dictInsert (m : Dict) (x : String × PyVal) : Dict :=
  if hasKey m x.1 then m.map (fun p => if p.1 = x.1 then x else p)
  else m ++ [x]

/-- Python `d.update(n)`: assign every entry of `n` in iteration order. -/
def dictUpdate (m n : Dict) : Dict := n.foldl dictInsert m

/-- Comparison used by `sorted(entropy.items())`: tuples compare by first
component; the dict invariant (distinct keys) makes ties impossible, so the
value components never take part. -/
def keyLE (a b : String × PyVal) : Prop := lexLe a.1.data b.1.data = true

instance : DecidableRel keyLE := fun a b =>
  inferInstanceAs (Decidable (lexLe a.1.data b.1.data = true))

instance : IsTotal (String × PyVal) keyLE := ⟨fun a b => lexLe_total a.1.data b.1.data⟩

instance : IsTrans (String × PyVal) keyLE :=
  ⟨fun a b c h h2 => lexLe_trans a.1.data b.1.data c.1.data h h2⟩

/-- `sorted(entropy.items())`. -/
def sortItems (m : Dict) : Dict := List.insertionSort keyLE m

/-- `str` of a list of `(key, value)` tuples. -/
def reprItems (m : Dict) : String :=
  "[" ++ joinCommaSp (m.map (fun kv => "('" ++ kv.1 ++ "', " ++ kv.2.pyRepr ++ ")")) ++ "]"

/-- Modelled from the spec: `md5sum` comes from `blade.util`, which is not
part of the analysed source; the spec asks only for a
"cryptographically-unremarkable but fast digest", and no property below
depends on anything beyond `md5sum` being a function, so a simple
deterministic 64-bit polynomial digest stands in. -/
def md5sum (s : String) : String :=
  natRepr (s.data.foldl (fun h c => (h * 131 + c.toNat) % 2 ^ 64) 7)

/-- The fixed entries of the entropy dict built by `fingerprint`, in
insertion order, `deps` holding the dependency fingerprints. -/
def baseEntropy (revision configDigest ty name : String)
    (srcs depFps : List String) : Dict :=
  [("blade_revision", PyVal.str revision), ("config", PyVal.str configDigest),
   ("type", PyVal.str ty), ("name", PyVal.str name), ("srcs", PyVal.strlist srcs),
   ("deps", PyVal.strlist depFps)]

/-- `fingerprint` (the computation inside the memoization guard): build the
entropy dict, merge the target-specific entropy (`_fingerprint_entropy`,
by default `self.attr`), serialize `sorted(entropy.items())` and hash.
`blade.revision()` and `config.digest()` are collaborator values passed in;
`attr` is the items list of the attribute dict (distinct keys). -/
def fingerprint (revision configDigest ty name : String)
    (srcs depFps : List String) (attr : Dict) : String :=
  md5sum (reprItems (sortItems (dictUpdate (baseEntropy revision configDigest ty name srcs depFps) attr)))

/-! ## Lemmas about the dependency-resolver state -/

theorem unify_dep_fst (s : DepState) (d : String) :
    (unify_dep s d).1 = unify_key s.path d := by
  simp only [unify_key, unify_dep, freshDepState]
  split_ifs <;> rfl

theorem unify_dep_path (s : DepState) (d : String) : (unify_dep s d).2.path = s.path := by
  simp only [unify_dep, add_system_library]
  split_ifs <;> rfl

theorem unify_dep_deps (s : DepState) (d : String) : (unify_dep s d).2.deps = s.deps := by
  simp only [unify_dep, add_system_library]
  split_ifs <;> rfl

theorem unify_dep_implicit (s : DepState) (d : String) :
    (unify_dep s d).2.implicit_deps = s.implicit_deps := by
  simp only [unify_dep, add_system_library]
  split_ifs <;> rfl

theorem append_dep_path (s : DepState) (k : String) : (append_dep s k).path = s.path := by
  unfold append_dep; split_ifs <;> rfl

theorem append_dep_implicit (s : DepState) (k : String) :
    (append_dep s k).implicit_deps = s.implicit_deps := by
  unfold append_dep; split_ifs <;> rfl

theorem append_dep_deps (s : DepState) (k : String) :
    (append_dep s k).deps = if k ∈ s.deps then s.deps else s.deps ++ [k] := by
  unfold append_dep; split_ifs <;> rfl

theorem append_dep_self_mem (s : DepState) (k : String) : k ∈ (append_dep s k).deps := by
  unfold append_dep; split_ifs with h
  · exact h
  · simp

theorem add_system_library_path (s : DepState) (k : String) :
    (add_system_library s k).path = s.path := by
  unfold add_system_library; split_ifs <;> rfl

theorem add_system_library_deps (s : DepState) (k : String) :
    (add_system_library s k).deps = s.deps := by
  unfold add_system_library; split_ifs <;> rfl

theorem add_system_library_implicit (s : DepState) (k : String) :
    (add_system_library s k).implicit_deps = s.implicit_deps := by
  unfold add_system_library; split_ifs <;> rfl

/-- `t` refines `s` by running dependency-adding code: the directory is
unchanged, the dependency sequence is only ever appended to, and
freedom from duplicates is preserved. -/
def Extends (s t : DepState) : Prop :=
  t.path = s.path ∧ s.deps <+: t.deps ∧ (s.deps.Nodup → t.deps.Nodup)

theorem extends_refl (s : DepState) : Extends s s :=
  ⟨rfl, List.prefix_rfl, id⟩

theorem extends_trans {s t u : DepState} (h1 : Extends s t) (h2 : Extends t u) :
    Extends s u :=
  ⟨h2.1.trans h1.1, h1.2.1.trans h2.2.1, fun h => h2.2.2 (h1.2.2 h)⟩

theorem extends_unify (s : DepState) (d : String) : Extends s (unify_dep s d).2 :=
  ⟨unify_dep_path s d, unify_dep_deps s d ▸ List.prefix_rfl,
   fun h => unify_dep_deps s d ▸ h⟩

theorem extends_append (s : DepState) (k : String) : Extends s (append_dep s k) := by
  refine ⟨append_dep_path s k, ?_, ?_⟩ <;> rw [append_dep_deps] <;> split_ifs with h
  · exact List.prefix_rfl
  · exact List.prefix_append _ _
  · exact id
  · intro hnd
    exact hnd.append (List.nodup_singleton k)
      (fun x hx hxk => h ((List.mem_singleton.mp hxk) ▸ hx))

theorem extends_add_system_library (s : DepState) (k : String) :
    Extends s (add_system_library s k) :=
  ⟨add_system_library_path s k, add_system_library_deps s k ▸ List.prefix_rfl,
   fun h => add_system_library_deps s k ▸ h⟩

theorem extends_init_dep_step (s : DepState) (d : String) : Extends s (init_dep_step s d) := by
  unfold init_dep_step
  rcases h : unify_dep s d with ⟨v, s1⟩
  have hu : Extends s s1 := by have := extends_unify s d; rwa [h] at this
  cases v with
  | some k => exact extends_trans hu (extends_append s1 k)
  | none => exact hu

theorem extends_init_target_deps : ∀ (raws : List String) (s : DepState),
    Extends s (init_target_deps s raws)
  | [], _ => extends_refl _
  | r :: rs, s =>
    extends_trans (extends_init_dep_step s r) (extends_init_target_deps rs (init_dep_step s r))

theorem extends_set_implicit (s : DepState) (l : List String) :
    Extends s { s with implicit_deps := l } :=
  ⟨rfl, List.prefix_rfl, id⟩

theorem extends_add_implicit_library : ∀ (raws : List String) (s : DepState),
    Extends s (add_implicit_library s raws)
  | [], _ => extends_refl _
  | r :: rs, s => by
    simp only [add_implicit_library]
    rcases h : unify_dep s (rootify r) with ⟨v, s1⟩
    have hu : Extends s s1 := by have := extends_unify s (rootify r); rwa [h] at this
    cases v with
    | none => exact hu
    | some dkey =>
      refine extends_trans hu (extends_trans ?_ (extends_add_implicit_library rs _))
      refine extends_trans ?_ (extends_trans (extends_append _ dkey) (extends_set_implicit _ _))
      split_ifs
      · exact extends_add_system_library s1 dkey
      · exact extends_refl s1

theorem extends_add_location (s : DepState) (m : String × Option String) :
    Extends s (add_location_reference_target s m).2 := by
  simp only [add_location_reference_target]
  rcases h : unify_dep s m.1 with ⟨v, s1⟩
  have hu : Extends s s1 := by have := extends_unify s m.1; rwa [h] at this
  cases v with
  | some k => exact extends_trans hu (extends_append s1 k)
  | none => exact hu

theorem extends_runDepOp (s : DepState) (op : DepOp) : Extends s (runDepOp s op) := by
  cases op with
  | initDeps raw => exact extends_init_target_deps raw s
  | addImplicit raw => exact extends_add_implicit_library raw s
  | addLocation m => exact extends_add_location s m

theorem extends_runDepOps : ∀ (ops : List DepOp) (s : DepState),
    Extends s (runDepOps s ops)
  | [], _ => extends_refl _
  | op :: ops, s =>
    extends_trans (extends_runDepOp s op) (extends_runDepOps ops (runDepOp s op))

/-! ## Lemmas about lazy build-code generation -/

theorem runAccess_stable (gen : List String) (t : GenTarget) (op : AccessOp)
    (h : t.build_code = some gen) : runAccess gen t op = t := by
  cases op <;>
    simp [runAccess, get_build_code, get_target_file, get_target_files, h] <;>
    split_ifs <;> rfl

theorem runAccesses_stable (gen : List String) (t : GenTarget)
    (h : t.build_code = some gen) : ∀ ops : List AccessOp, runAccesses gen t ops = t
  | [] => rfl
  | op :: ops => by
    show runAccesses gen (runAccess gen t op) ops = t
    rw [runAccess_stable gen t op h]
    exact runAccesses_stable gen t h ops

theorem runAccess_fresh (gen : List String) (tg : List (String × String)) (dflt : String)
    (op : AccessOp) :
    runAccess gen (freshGenTarget tg dflt) op =
      { build_code := some gen, generate_calls := 1, targets := tg, default_target := dflt } := by
  cases op <;>
    simp [runAccess, freshGenTarget, get_build_code, get_target_file, get_target_files] <;>
    split_ifs <;> rfl

/-! ## Claim theorems -/

/-- **C2** Lazy-generation idempotence: starting from a freshly constructed
target, any non-empty sequence of statement-buffer accesses — directly via
`get_build_code` or through `_get_target_file` / `_get_target_files` —
invokes `generate()` exactly once (on the first call, which populates the
buffer), and afterwards `get_build_code` keeps returning the already-built
buffer. -/
theorem lazy_generation_idempotent (gen : List String) (tg : List (String × String))
    (dflt : String) (ops : List AccessOp) (h : ops ≠ []) :
    (runAccesses gen (freshGenTarget tg dflt) ops).generate_calls = 1 ∧
    (runAccesses gen (freshGenTarget tg dflt) ops).build_code = some gen ∧
    (get_build_code gen (runAccesses gen (freshGenTarget tg dflt) ops)).1 = gen := by
  obtain ⟨op, rest, rfl⟩ := List.exists_cons_of_ne_nil h
  have h1 : runAccesses gen (freshGenTarget tg dflt) (op :: rest) =
      { build_code := some gen, generate_calls := 1, targets := tg, default_target := dflt } := by
    show runAccesses gen (runAccess gen (freshGenTarget tg dflt) op) rest = _
    rw [runAccess_fresh]
    exact runAccesses_stable gen _ rfl rest
  rw [h1]
  exact ⟨rfl, rfl, rfl⟩

/-- Witness for C2: three accessor calls on one fresh target, one
`generate()` invocation. -/
theorem lazy_generation_idempotent_witness :
    ([AccessOp.direct, AccessOp.files, AccessOp.file "jar"] ≠ ([] : List AccessOp)) ∧
    (runAccesses ["build a: cc a.cc"] (freshGenTarget [("jar", "a.jar")] "a.jar")
        [AccessOp.direct, AccessOp.files, AccessOp.file "jar"]).generate_calls = 1 ∧
    (runAccesses ["build a: cc a.cc"] (freshGenTarget [("jar", "a.jar")] "a.jar")
        [AccessOp.direct, AccessOp.files, AccessOp.file "jar"]).build_code =
      some ["build a: cc a.cc"] ∧
    (get_build_code ["build a: cc a.cc"]
        (runAccesses ["build a: cc a.cc"] (freshGenTarget [("jar", "a.jar")] "a.jar")
          [AccessOp.direct, AccessOp.files, AccessOp.file "jar"])).1 = ["build a: cc a.cc"] :=
  ⟨by decide,
   lazy_generation_idempotent ["build a: cc a.cc"] [("jar", "a.jar")] "a.jar"
     [AccessOp.direct, AccessOp.files, AccessOp.file "jar"] (by decide)⟩

/-- **C3** Visibility matching contract: `_match_visibility R D` holds iff
the two targets share a directory, or `D`'s visibility set contains
`PUBLIC`, or it contains `R`'s key exactly, or some pattern in it matches
`R`'s key under the wildcard matcher; otherwise it is false. -/
theorem match_visibility_spec (pmatch : String → String → Bool) (self dep : VTarget) :
    match_visibility pmatch self dep = true ↔
      self.path = dep.path ∨ "PUBLIC" ∈ dep.visibility ∨ self.key ∈ dep.visibility ∨
        ∃ p ∈ dep.visibility, pmatch self.key p = true := by
  unfold match_visibility
  split_ifs with h1 h2 h3
  · simp [h1]
  · simp [h2]
  · simp [h3]
  · simp [h1, h2, h3, List.any_eq_true]

/-- **C5** Parser normalization cases: `//a/b/:t` resolves to directory
`a/b` and name `t`; `:t` resolves into the referring target's directory;
`#z` parses to the system directory `#` with name `z`; `a/../b:t` is a
parent-path rejection; `a:b:c` is a format error whose message points at a
missing separator; and the directory component is path-normalized
(`a/./b//` collapses to `a/b`). -/
theorem parser_normalization_cases :
    (∀ cur : String, unify_key cur "//a/b/:t" = some "a/b:t") ∧
    (∀ cur : String, unify_key cur ":t" = some (cur ++ ":t")) ∧
    parse_target "#z" = ("#", "z", []) ∧
    (∀ cur : String, unify_key cur "#z" = some "#:z") ∧
    parse_target "a/../b:t" = ("", "", ["parent path \"..\" is not allowed"]) ∧
    parse_target "a:b:c" = ("", "", ["format error, missing \",\" between targets?"]) ∧
    parse_target "a/./b//:t" = ("a/b", "t", []) := by
  refine ⟨fun cur => ?_, fun cur => ?_, by decide, fun cur => ?_, by decide, by decide, by decide⟩
  · have h : parse_target "//a/b/:t" = ("//a/b", "t", []) := by decide
    simp only [unify_key, unify_dep, freshDepState, h]
    rw [if_neg (by decide), if_neg (by decide), if_pos (by decide)]
    show some (strDrop "//a/b" 2 ++ ":" ++ "t") = some "a/b:t"
    decide
  · have h : parse_target ":t" = ("", "t", []) := by decide
    simp only [unify_key, unify_dep, freshDepState, h]
    rw [if_neg (by decide), if_neg (by decide), if_neg (by decide), if_neg (by decide)]
    show some (cur ++ ":" ++ "t") = some (cur ++ ":t")
    exact congrArg some (String.ext (by simp [String.data_append]))
  · have h : parse_target "#z" = ("#", "z", []) := by decide
    simp [unify_key, unify_dep, freshDepState, h]

/-- **C6** Dependency-deduplication invariant: across any sequence of
`_init_target_deps`, `_add_implicit_library` and
`_add_location_reference_target` calls, a duplicate-free dependency
sequence stays duplicate-free (each resolved key occurs at most once), and
the existing sequence is only appended to, so keys stay in
first-successful-addition order. -/
theorem deps_dedup_invariant (ops : List DepOp) (s : DepState) (h : s.deps.Nodup) :
    (runDepOps s ops).deps.Nodup ∧ s.deps <+: (runDepOps s ops).deps ∧
      ∀ k, (runDepOps s ops).deps.count k ≤ 1 := by
  have he := extends_runDepOps ops s
  refine ⟨he.2.2 h, he.2.1, fun k => ?_⟩
  exact List.nodup_iff_count_le_one.mp (he.2.2 h) k

/-- Witness for C6: a run that hits the same resolved key through all three
entry points leaves a single occurrence. -/
theorem deps_dedup_invariant_witness :
    (freshDepState "d").deps.Nodup ∧
    ((runDepOps (freshDepState "d")
        [DepOp.initDeps ["//a:b", "//a:b", ":c"], DepOp.addImplicit ["a:b"],
         DepOp.addLocation ("//a:b", none)]).deps.Nodup ∧
      (freshDepState "d").deps <+:
        (runDepOps (freshDepState "d")
          [DepOp.initDeps ["//a:b", "//a:b", ":c"], DepOp.addImplicit ["a:b"],
           DepOp.addLocation ("//a:b", none)]).deps ∧
      ∀ k, (runDepOps (freshDepState "d")
          [DepOp.initDeps ["//a:b", "//a:b", ":c"], DepOp.addImplicit ["a:b"],
           DepOp.addLocation ("//a:b", none)]).deps.count k ≤ 1) :=
  ⟨by decide,
   deps_dedup_invariant
     [DepOp.initDeps ["//a:b", "//a:b", ":c"], DepOp.addImplicit ["a:b"],
      DepOp.addLocation ("//a:b", none)] (freshDepState "d") (by decide)⟩

theorem init_dep_step_path (s : DepState) (d : String) :
    (init_dep_step s d).path = s.path := by
  unfold init_dep_step
  rcases h : unify_dep s d with ⟨v, s1⟩
  have hp : s1.path = s.path := by have := unify_dep_path s d; rwa [h] at this
  cases v with
  | some k => exact (append_dep_path s1 k).trans hp
  | none => exact hp

theorem init_mem_mono (s : DepState) (raws : List String) (x : String) (h : x ∈ s.deps) :
    x ∈ (init_target_deps s raws).deps :=
  (extends_init_target_deps raws s).2.1.subset h

theorem init_adds_valid : ∀ (raws : List String) (s : DepState) (d k : String),
    d ∈ raws → unify_key s.path d = some k → k ∈ (init_target_deps s raws).deps
  | [], _, d, _, h, _ => absurd h (List.not_mem_nil d)
  | r :: rs, s, d, k, h, hu => by
    rcases List.mem_cons.mp h with rfl | hmem
    · have h1 : (unify_dep s d).1 = some k := (unify_dep_fst s d).trans hu
      have h2 : k ∈ (init_dep_step s d).deps := by
        unfold init_dep_step
        rcases hud : unify_dep s d with ⟨v, s1⟩
        rw [hud] at h1
        cases h1
        exact append_dep_self_mem s1 k
      exact init_mem_mono (init_dep_step s d) rs k h2
    · exact init_adds_valid rs (init_dep_step s r) d k hmem
        (by rw [init_dep_step_path]; exact hu)

/-- **C7 (counterexample)** The claim fails for `_add_implicit_library`: in
the list `["a:b:c", "x:y"]` the first entry is invalid and the second is
valid (it unifies to the key `x:y` after the implicit `//` prefixing), yet
the run leaves the dependency sequence empty — the valid entry after the
invalid one was never processed, because the source `return`s instead of
continuing. -/
theorem per_entry_error_recovery_cex :
    unify_key "d" (rootify "x:y") = some "x:y" ∧
    (add_implicit_library (freshDepState "d") ["a:b:c", "x:y"]).deps = [] ∧
    (add_implicit_library (freshDepState "d") ["a:b:c", "x:y"]).errors =
      ["Invalid dependency \"//a:b:c\", format error, missing \",\" between targets?"] := by
  decide

/-- **C7 (amended)** Per-entry error recovery holds for the declared-deps
initializer only: `_init_target_deps` reports per entry and continues, so
every entry of the raw list that unifies successfully ends up in the
dependency sequence, wherever it sits relative to invalid entries.
`_add_implicit_library`, by contrast, stops at the first entry that fails
to parse: its result is exactly the error-reporting state of that entry,
independent of all later entries, which are never processed. -/
theorem per_entry_error_recovery_amended :
    (∀ (s : DepState) (raws : List String) (d k : String),
        d ∈ raws → unify_key s.path d = some k →
        k ∈ (init_target_deps s raws).deps) ∧
    (∀ (s : DepState) (bad : String) (rest : List String),
        unify_key s.path (rootify bad) = none →
        add_implicit_library s (bad :: rest) = (unify_dep s (rootify bad)).2) := by
  constructor
  · exact fun s raws d k h hu => init_adds_valid raws s d k h hu
  · intro s bad rest h
    have h1 : (unify_dep s (rootify bad)).1 = none :=
      (unify_dep_fst s (rootify bad)).trans h
    simp only [add_implicit_library]
    rcases hu : unify_dep s (rootify bad) with ⟨v, s1⟩
    rw [hu] at h1
    cases h1
    rfl

/-- Witness for the amended C7: the valid entry `x:y` placed after the
invalid `a:b:c` still lands in `deps` for `_init_target_deps`, while
`_add_implicit_library` run on the same shape stops at the invalid entry. -/
theorem per_entry_error_recovery_amended_witness :
    ("x:y" ∈ ["a:b:c", "x:y"] ∧ unify_key (freshDepState "d").path "x:y" = some "d/x:y" ∧
      unify_key (freshDepState "d").path (rootify "a:b:c") = none) ∧
    "d/x:y" ∈ (init_target_deps (freshDepState "d") ["a:b:c", "x:y"]).deps ∧
    add_implicit_library (freshDepState "d") ["a:b:c", "x:y"] =
      (unify_dep (freshDepState "d") (rootify "a:b:c")).2 :=
  ⟨by decide,
   per_entry_error_recovery_amended.1 (freshDepState "d") ["a:b:c", "x:y"] "x:y" "d/x:y"
     (by decide) (by decide),
   per_entry_error_recovery_amended.2 (freshDepState "d") "a:b:c" ["x:y"] (by decide)⟩

/-- **C9 (counterexample)** The claim fails on the implicit-marking part:
resolving the location reference `$(location //a:b)` appends the key `a:b`
to the dependency sequence and returns `(a:b, "")`, but the
implicit-dependency set stays empty — `_add_location_reference_target`
never records the key in `_implicit_deps`. -/
theorem location_reference_cex :
    (add_location_reference_target (freshDepState "d") ("//a:b", none)).2.deps = ["a:b"] ∧
    (add_location_reference_target (freshDepState "d") ("//a:b", none)).1 = (some "a:b", "") ∧
    (add_location_reference_target (freshDepState "d") ("//a:b", none)).2.implicit_deps = [] := by
  decide

/-- **C9 (amended)** For every successfully resolved `$(location ...)`
reference, `_add_location_reference_target` appends the referenced key to
the dependency sequence when it is not already present and returns the
`(key, output-type-tag)` pair; it does not mark the key as implicit — the
implicit-dependency set is left unchanged by every call. -/
theorem location_reference_amended :
    (∀ (s : DepState) (m : String × Option String),
        (add_location_reference_target s m).2.implicit_deps = s.implicit_deps) ∧
    (∀ (s : DepState) (m : String × Option String) (k : String),
        (unify_dep s m.1).1 = some k →
        (add_location_reference_target s m).1 = (some k, pyStrip (m.2.getD "")) ∧
        (add_location_reference_target s m).2.deps =
          (if k ∈ s.deps then s.deps else s.deps ++ [k])) := by
  constructor
  · intro s m
    simp only [add_location_reference_target]
    rcases hu : unify_dep s m.1 with ⟨v, s1⟩
    have hi : s1.implicit_deps = s.implicit_deps := by
      have := unify_dep_implicit s m.1; rwa [hu] at this
    cases v with
    | some k => exact (append_dep_implicit s1 k).trans hi
    | none => exact hi
  · intro s m k h
    simp only [add_location_reference_target]
    rcases hu : unify_dep s m.1 with ⟨v, s1⟩
    rw [hu] at h
    cases h
    have hd : s1.deps = s.deps := by have := unify_dep_deps s m.1; rwa [hu] at this
    exact ⟨rfl, by rw [append_dep_deps, hd]⟩

/-- Witness for the amended C9: a fresh target resolving
`$(location //a:b so)`. -/
theorem location_reference_amended_witness :
    ((unify_dep (freshDepState "d") "//a:b").1 = some "a:b") ∧
    (add_location_reference_target (freshDepState "d") ("//a:b", some " so")).2.implicit_deps =
      (freshDepState "d").implicit_deps ∧
    (add_location_reference_target (freshDepState "d") ("//a:b", some " so")).1 =
      (some "a:b", pyStrip ((some " so").getD "")) ∧
    (add_location_reference_target (freshDepState "d") ("//a:b", some " so")).2.deps =
      (if "a:b" ∈ (freshDepState "d").deps then (freshDepState "d").deps
       else (freshDepState "d").deps ++ ["a:b"]) :=
  ⟨by decide,
   location_reference_amended.1 (freshDepState "d") ("//a:b", some " so"),
   location_reference_amended.2 (freshDepState "d") ("//a:b", some " so") "a:b" (by decide)⟩

/-- A requester in directory `b` declaring a dependency on `a:d`
(visibility example input). -/
def requesterB : VTarget := ⟨"b", "b:r", [], true, ["a:d"]⟩

/-- A dependency in directory `a` with defaulted (private) visibility
(visibility example input). -/
def privateDepA : VTarget := ⟨"a", "a:d", [], true, []⟩

/-- A dependency in directory `a` with an explicitly declared visibility
list that does not cover `b:r` (visibility example input). -/
def declaredDepA : VTarget := ⟨"a", "a:d", ["b2:x"], false, []⟩

/-- **C4 (counterexample)** The claim fails on severity: for a requester in
directory `b` depending on a private, default-visibility target in
directory `a`, `check_visibility` emits the violation through
`console.error` — not through `console.fatal` — followed by the info
diagnostic; no diagnostic of the fatal class is produced. -/
theorem visibility_violation_severity_cex :
    check_visibility (fun _ _ => false) (fun _ => privateDepA) requesterB =
      [(Level.error, "b:r", notAllowedMsg "a:d"),
       (Level.info, "a:d", noExplicitVisibilityMsg)] ∧
    (check_visibility (fun _ _ => false) (fun _ => privateDepA) requesterB).all
      (fun dg => dg.1 ≠ Level.fatal) = true := by
  decide

/-- **C4 (amended)** When `check_visibility` finds a declared dependency
edge whose visibility check fails, it reports the violation against the
requesting target as an `error`-class diagnostic (collected, not
pass-terminating: `check_visibility` never emits a fatal-class diagnostic),
and emits a secondary informational diagnostic on the dependency stating
whether its visibility was explicitly declared or defaulted. -/
theorem visibility_violation_reporting_amended (pmatch : String → String → Bool)
    (db : String → VTarget) (self : VTarget) (dep_id : String)
    (hmem : dep_id ∈ self.deps)
    (hfail : match_visibility pmatch self (db dep_id) = false) :
    (Level.error, self.key, notAllowedMsg dep_id) ∈ check_visibility pmatch db self ∧
    (Level.info, (db dep_id).key,
        if (db dep_id).visibility_is_default then noExplicitVisibilityMsg
        else declaredHereMsg) ∈ check_visibility pmatch db self ∧
    ∀ dg ∈ check_visibility pmatch db self, dg.1 ≠ Level.fatal := by
  refine ⟨?_, ?_, ?_⟩
  · exact List.mem_flatMap.mpr ⟨dep_id, hmem, by simp [hfail]⟩
  · exact List.mem_flatMap.mpr ⟨dep_id, hmem, by simp [hfail]⟩
  · intro dg hdg
    obtain ⟨i, _, hin⟩ := List.mem_flatMap.mp hdg
    by_cases hm : match_visibility pmatch self (db i) = true
    · simp [hm] at hin
    · rw [Bool.not_eq_true] at hm
      simp only [hm, Bool.false_eq_true, if_false, List.mem_cons, List.mem_singleton,
        List.not_mem_nil, or_false] at hin
      rcases hin with rfl | rfl <;> exact fun hc => Level.noConfusion hc

/-- Witness for the amended C4: the concrete failing edge from `b:r` to the
explicitly-declared `a:d`. -/
theorem visibility_violation_reporting_amended_witness :
    ("a:d" ∈ requesterB.deps ∧
      match_visibility (fun _ _ => false) requesterB
        ((fun _ => declaredDepA) "a:d") = false) ∧
    (Level.error, requesterB.key, notAllowedMsg "a:d") ∈
      check_visibility (fun _ _ => false) (fun _ => declaredDepA) requesterB ∧
    (Level.info, ((fun _ => declaredDepA) "a:d").key,
        if ((fun _ => declaredDepA) "a:d").visibility_is_default
        then noExplicitVisibilityMsg else declaredHereMsg) ∈
      check_visibility (fun _ _ => false) (fun _ => declaredDepA) requesterB ∧
    ∀ dg ∈ check_visibility (fun _ _ => false) (fun _ => declaredDepA) requesterB,
      dg.1 ≠ Level.fatal :=
  ⟨⟨by decide, by decide⟩,
   (visibility_violation_reporting_amended (fun _ _ => false) (fun _ => declaredDepA)
      requesterB "a:d" (by decide) (by decide)).1,
   (visibility_violation_reporting_amended (fun _ _ => false) (fun _ => declaredDepA)
      requesterB "a:d" (by decide) (by decide)).2⟩

/-- **C8 (counterexample)** The claim fails on the diagnostic condition:
with the duplicated-source policy set to `error`, a source owned by a
duplicate-disallowing target and re-claimed by a duplicate-allowing target
keeps the existing claim but produces **no** diagnostic — the policy is not
applied whenever the existing owner disallows duplicates, only when the new
claimant disallows them too. -/
theorem duplicate_source_policy_cex :
    (("//a:t", false) ≠ ("//b:u", true)) ∧
    claim_src "error" [("f.cc", ("//a:t", false))] "f.cc" "f.cc" ("//b:u", true) "b:u" =
      ([("f.cc", ("//a:t", false))], []) := by
  decide

/-- **C8 (amended)** Ownership-conflict resolution for a normalized source
path claimed by two different targets: if the existing owner allows
duplicates, ownership transfers to the new claimant with no diagnostic; if
the existing owner disallows duplicates, the existing claim is kept, and
the new target is warned or errored according to the configured
duplicated-source policy only when the new claimant also disallows
duplicates — if either party allows duplicates, no diagnostic is produced.
A claim from a target that disallows duplicates therefore always wins the
ownership record. -/
theorem duplicate_source_resolution_amended (action : String) (m : SrcMap)
    (src full_src selfKey : String) (pr : String × String × Bool) (tgt : String × Bool)
    (hfind : m.find? (fun p => p.1 = full_src) = some pr) (hne : pr.2 ≠ tgt) :
    (pr.2.2 = true →
      claim_src action m src full_src tgt selfKey =
        (m.map (fun q => if q.1 = full_src then (full_src, tgt) else q), [])) ∧
    (pr.2.2 = false → tgt.2 = true →
      claim_src action m src full_src tgt selfKey = (m, [])) ∧
    (pr.2.2 = false → tgt.2 = false →
      claim_src action m src full_src tgt selfKey =
        (m,
          if action = "error" then [(Level.error, selfKey, alreadyInSrcsMsg src pr.2.1)]
          else if action = "warning" then
            [(Level.warning, selfKey, alreadyInSrcsMsg src pr.2.1)]
          else [])) := by
  simp only [claim_src, hfind]
  refine ⟨fun h2 => ?_, fun h2 h3 => ?_, fun h2 h3 => ?_⟩
  · rw [if_neg hne, if_pos h2]
  · rw [if_neg hne, if_neg (by simp [h2]), if_pos h3]
  · rw [if_neg hne, if_neg (by simp [h2]), if_neg (by simp [h3])]

/-- Witness for the amended C8: under policy `error`, a both-disallowing
conflict errors, and the stricter-claimant rule is exercised. -/
theorem duplicate_source_resolution_amended_witness :
    ([("f.cc", ("//a:t", false))].find? (fun p => p.1 = "f.cc") =
        some ("f.cc", ("//a:t", false)) ∧
      (("f.cc", ("//a:t", false)) : String × String × Bool).2 ≠ ("//b:u", false)) ∧
    ((("f.cc", ("//a:t", false)) : String × String × Bool).2.2 = false →
      ("//b:u", false).2 = false →
      claim_src "error" [("f.cc", ("//a:t", false))] "f.cc" "f.cc" ("//b:u", false) "b:u" =
        ([("f.cc", ("//a:t", false))],
          if "error" = "error" then
            [(Level.error, "b:u", alreadyInSrcsMsg "f.cc" "//a:t")]
          else if "error" = "warning" then
            [(Level.warning, "b:u", alreadyInSrcsMsg "f.cc" "//a:t")]
          else [])) :=
  ⟨⟨by decide, by decide⟩,
   (duplicate_source_resolution_amended "error" [("f.cc", ("//a:t", false))] "f.cc" "f.cc"
      "b:u" ("f.cc", ("//a:t", false)) ("//b:u", false) (by decide) (by decide)).2.2⟩

theorem check_src_step_diags_mono (selfKey path kind : String) (exts : List String)
    (fe : String → Bool) (acc : SrcAcc) (src : String) :
    acc.diags <+: (check_src_step selfKey path kind exts fe acc src).diags := by
  simp only [check_src_step]
  split_ifs <;> simp [List.prefix_append, List.prefix_rfl, List.append_assoc]

theorem check_src_step_adds_invalid (selfKey path kind : String) (exts : List String)
    (fe : String → Bool) (acc : SrcAcc) (src : String)
    (h : (pyIn ".." src || strStartsWith src "/") = true) :
    (Level.error, selfKey, invalidPathMsg kind src) ∈
      (check_src_step selfKey path kind exts fe acc src).diags := by
  simp only [check_src_step]
  split_ifs <;> simp_all

theorem check_sources_fold_mono (selfKey path kind : String) (exts : List String)
    (fe : String → Bool) : ∀ (files : List String) (acc : SrcAcc),
    acc.diags <+: (files.foldl (check_src_step selfKey path kind exts fe) acc).diags
  | [], _ => List.prefix_rfl
  | f :: fs, acc =>
    (check_src_step_diags_mono selfKey path kind exts fe acc f).trans
      (check_sources_fold_mono selfKey path kind exts fe fs _)

theorem check_sources_fold_adds_invalid (selfKey path kind : String) (exts : List String)
    (fe : String → Bool) (src : String) (hdd : pyIn ".." src = true) :
    ∀ (files : List String) (acc : SrcAcc), src ∈ files →
    (Level.error, selfKey, invalidPathMsg kind src) ∈
      (files.foldl (check_src_step selfKey path kind exts fe) acc).diags
  | [], _, h => absurd h (List.not_mem_nil _)
  | f :: fs, acc, h => by
    rcases List.mem_cons.mp h with rfl | hmem
    · exact (check_sources_fold_mono selfKey path kind exts fe fs _).subset
        (check_src_step_adds_invalid selfKey path kind exts fe acc src (by simp [hdd]))
    · exact check_sources_fold_adds_invalid selfKey path kind exts fe src hdd fs _ hmem

theorem pyIn_drop2_of_startsWith (p : String) (hs : strStartsWith p "//" = true)
    (h : pyIn ".." p = true) : pyIn ".." (strDrop p 2) = true := by
  have e1 : ("//" : String).data = ['/', '/'] := rfl
  have e2 : ((".." : String)).data = ['.', '.'] := rfl
  unfold strStartsWith at hs
  unfold pyIn at h ⊢
  unfold strDrop
  rw [e1] at hs
  rw [e2] at h ⊢
  rcases hd : p.data with _ | ⟨c1, t⟩
  · rw [hd] at hs; simp [lpre] at hs
  rcases ht : t with _ | ⟨c2, rest⟩
  · rw [hd, ht] at hs; simp +decide [lpre] at hs
  rw [hd, ht] at hs h
  obtain ⟨hc1, hc2⟩ : '/' = c1 ∧ '/' = c2 := by
    simp only [lpre, Bool.and_eq_true, decide_eq_true_eq] at hs
    exact ⟨hs.1, hs.2.1⟩
  subst hc1
  subst hc2
  have l1 : lpre ['.', '.'] ('/' :: '/' :: rest) = false := by simp +decide [lpre]
  have l2 : lpre ['.', '.'] ('/' :: rest) = false := by simp +decide [lpre]
  simp only [lsub, l1, l2, Bool.false_or] at h
  exact h

theorem check_path_reports_dotdot (p : String) (h : pyIn ".." p = true) :
    "parent path \"..\" is not allowed" ∈ check_path p := by
  have h2 : pyIn ".." (if strStartsWith p "//" then strDrop p 2 else p) = true := by
    split_ifs with hs
    · exact pyIn_drop2_of_startsWith p hs h
    · exact h
  simp only [check_path]
  exact List.mem_append_right _ (by rw [if_pos h2]; exact List.mem_singleton.mpr rfl)

/-- **C10** Parent-path rejection is substring-based, not segment-based:
`_check_sources` reports the invalid-path error for every source string in
which `..` occurs as a (two-character) substring, and `_check_path` emits
its parent-path message under the same substring test — so a path such as
`a..b.cc`, which has no `..` path segment at all, is still rejected. -/
theorem dotdot_substring_rejection :
    (∀ (selfKey path kind : String) (files exts : List String) (fe : String → Bool)
        (src : String), src ∈ files → pyIn ".." src = true →
        (Level.error, selfKey, invalidPathMsg kind src) ∈
          check_sources selfKey path kind files exts fe) ∧
    (∀ p : String, pyIn ".." p = true →
        "parent path \"..\" is not allowed" ∈ check_path p) := by
  constructor
  · intro selfKey path kind files exts fe src hmem hdd
    simp only [check_sources]
    exact List.mem_append_left _
      (check_sources_fold_adds_invalid selfKey path kind exts fe src hdd files _ hmem)
  · exact check_path_reports_dotdot

/-- Witness for C10: `a..b.cc` contains `..` as a substring yet has no
`..` segment (its only `/`-separated component is `a..b.cc` itself), and it
is reported as an invalid source path; `_check_path` likewise rejects
`a..b`. -/
theorem dotdot_substring_rejection_witness :
    ("a..b.cc" ∈ ["a..b.cc"] ∧ pyIn ".." "a..b.cc" = true ∧
      ((splitOnChar '/' "a..b.cc".data).map String.mk).all (fun seg => seg ≠ "..") = true ∧
      pyIn ".." "a..b" = true) ∧
    (Level.error, "x:t", invalidPathMsg "source" "a..b.cc") ∈
      check_sources "x:t" "d" "source" ["a..b.cc"] ["cc"] (fun _ => true) ∧
    "parent path \"..\" is not allowed" ∈ check_path "a..b" :=
  ⟨by decide,
   dotdot_substring_rejection.1 "x:t" "d" "source" ["a..b.cc"] ["cc"] (fun _ => true)
     "a..b.cc" (by decide) (by decide),
   dotdot_substring_rejection.2 "a..b" (by decide)⟩

/-! ## Lemmas about the entropy dict -/

theorem keys_map_override (m : Dict) (x : String × PyVal) :
    (m.map (fun p => if p.1 = x.1 then x else p)).map Prod.fst = m.map Prod.fst := by
  induction m with
  | nil => rfl
  | cons a t ih =>
    by_cases h : a.1 = x.1 <;> simp [h, ih]

theorem hasKey_iff_mem (m : Dict) (k : String) :
    hasKey m k = true ↔ k ∈ m.map Prod.fst := by
  simp only [hasKey, List.any_eq_true, decide_eq_true_eq, List.mem_map]

theorem hasKey_map_override (m : Dict) (x : String × PyVal) (k : String) :
    hasKey (m.map (fun p => if p.1 = x.1 then x else p)) k = hasKey m k := by
  rw [Bool.eq_iff_iff, hasKey_iff_mem, hasKey_iff_mem, keys_map_override]

theorem hasKey_append_single (m : Dict) (x : String × PyVal) (k : String) :
    hasKey (m ++ [x]) k = (hasKey m k || decide (x.1 = k)) := by
  simp [hasKey, List.any_append]

theorem hasKey_perm (m1 m2 : Dict) (k : String) (h : m1.Perm m2) :
    hasKey m1 k = hasKey m2 k := by
  rw [Bool.eq_iff_iff, hasKey_iff_mem, hasKey_iff_mem]
  exact (h.map Prod.fst).mem_iff

theorem dictInsert_keys_nodup (m : Dict) (x : String × PyVal)
    (h : (m.map Prod.fst).Nodup) : ((dictInsert m x).map Prod.fst).Nodup := by
  unfold dictInsert
  split_ifs with hk
  · rw [keys_map_override]; exact h
  · have hx : x.1 ∉ m.map Prod.fst := fun hmem =>
      (Bool.eq_false_iff.mp (Bool.not_eq_true _ ▸ hk : hasKey m x.1 = false))
        ((hasKey_iff_mem m x.1).mpr hmem)
    rw [List.map_append]
    exact h.append (List.nodup_singleton x.1)
      (fun y hy hysing => hx ((List.mem_singleton.mp hysing) ▸ hy))

theorem dictInsert_perm (m1 m2 : Dict) (x : String × PyVal) (h : m1.Perm m2) :
    (dictInsert m1 x).Perm (dictInsert m2 x) := by
  unfold dictInsert
  rw [hasKey_perm m1 m2 x.1 h]
  split_ifs with hk
  · exact h.map _
  · exact h.append_right [x]

theorem dictInsert_of_hasKey (m : Dict) (z : String × PyVal) (h : hasKey m z.1 = true) :
    dictInsert m z = m.map (fun p => if p.1 = z.1 then z else p) := by
  unfold dictInsert; rw [if_pos h]

theorem dictInsert_of_not_hasKey (m : Dict) (z : String × PyVal)
    (h : hasKey m z.1 = false) : dictInsert m z = m ++ [z] := by
  unfold dictInsert; rw [if_neg (by simp [h])]

theorem override_comm (x y : String × PyVal) (hxy : x.1 ≠ y.1) :
    ((fun p : String × PyVal => if p.1 = y.1 then y else p) ∘
      fun p => if p.1 = x.1 then x else p) =
    ((fun p : String × PyVal => if p.1 = x.1 then x else p) ∘
      fun p => if p.1 = y.1 then y else p) := by
  funext p
  simp only [Function.comp_apply]
  by_cases h1 : p.1 = x.1
  · rw [if_pos h1, if_neg (show ¬x.1 = y.1 from hxy),
      if_neg (show ¬p.1 = y.1 from fun hc => hxy (h1.symm.trans hc)), if_pos h1]
  · by_cases h2 : p.1 = y.1
    · rw [if_neg h1, if_pos h2]
      exact (if_neg (show ¬y.1 = x.1 from fun hc => hxy hc.symm)).symm
    · rw [if_neg h1, if_neg h2]
      exact (if_neg h1).symm

theorem dictInsert_comm (m : Dict) (x y : String × PyVal) (hxy : x.1 ≠ y.1) :
    (dictInsert (dictInsert m x) y).Perm (dictInsert (dictInsert m y) x) := by
  by_cases hx : hasKey m x.1 = true <;> by_cases hy : hasKey m y.1 = true
  · -- both keys present: the two override maps commute pointwise
    rw [dictInsert_of_hasKey m x hx, dictInsert_of_hasKey m y hy,
      dictInsert_of_hasKey _ y (by rw [hasKey_map_override]; exact hy),
      dictInsert_of_hasKey _ x (by rw [hasKey_map_override]; exact hx),
      List.map_map, List.map_map, override_comm x y hxy]
  · -- x present, y new
    have hyF : hasKey m y.1 = false := by simpa using hy
    rw [dictInsert_of_hasKey m x hx, dictInsert_of_not_hasKey m y hyF,
      dictInsert_of_not_hasKey _ y (by rw [hasKey_map_override]; exact hyF),
      dictInsert_of_hasKey _ x (by rw [hasKey_append_single, hx]; rfl),
      List.map_append]
    have hfy : (if y.1 = x.1 then x else y) = y := if_neg (fun hc => hxy hc.symm)
    simp only [List.map_cons, List.map_nil, hfy]
    exact List.Perm.refl _
  · -- y present, x new
    have hxF : hasKey m x.1 = false := by simpa using hx
    rw [dictInsert_of_not_hasKey m x hxF, dictInsert_of_hasKey m y hy,
      dictInsert_of_hasKey _ y (by rw [hasKey_append_single, hy]; rfl),
      dictInsert_of_not_hasKey _ x (by rw [hasKey_map_override]; exact hxF),
      List.map_append]
    have hfx : (if x.1 = y.1 then y else x) = x := if_neg hxy
    simp only [List.map_cons, List.map_nil, hfx]
    exact List.Perm.refl _
  · -- both new
    have hxF : hasKey m x.1 = false := by simpa using hx
    have hyF : hasKey m y.1 = false := by simpa using hy
    rw [dictInsert_of_not_hasKey m x hxF, dictInsert_of_not_hasKey m y hyF,
      dictInsert_of_not_hasKey _ y
        (by rw [hasKey_append_single, hyF, decide_eq_false hxy]; rfl),
      dictInsert_of_not_hasKey _ x
        (by rw [hasKey_append_single, hxF, decide_eq_false (fun hc => hxy hc.symm)]; rfl),
      List.append_assoc, List.append_assoc]
    exact List.Perm.append_left m (List.Perm.swap y x [])

theorem dictUpdate_perm_base : ∀ (l : Dict) (m1 m2 : Dict), m1.Perm m2 →
    (dictUpdate m1 l).Perm (dictUpdate m2 l)
  | [], _, _, h => h
  | x :: l, m1, m2, h => dictUpdate_perm_base l _ _ (dictInsert_perm m1 m2 x h)

theorem dictUpdate_perm_arg (l1 l2 : Dict) (h : l1.Perm l2)
    (hnd : (l1.map Prod.fst).Nodup) (m : Dict) :
    (dictUpdate m l1).Perm (dictUpdate m l2) := by
  induction h generalizing m with
  | nil => exact List.Perm.refl _
  | cons x h ih =>
    rename_i t1 t2
    exact ih (by simpa using (List.nodup_cons.mp (by simpa using hnd)).2) (dictInsert m x)
  | swap x y l =>
    have hne : y.1 ≠ x.1 := by
      simp only [List.map_cons, List.nodup_cons, List.mem_cons, List.mem_map] at hnd
      exact fun hc => hnd.1 (Or.inl hc)
    exact dictUpdate_perm_base l _ _ (dictInsert_comm m y x hne)
  | trans h1 h2 ih1 ih2 =>
    exact (ih1 hnd m).trans (ih2 (((h1.map Prod.fst).nodup_iff).mp hnd) m)

theorem dictUpdate_keys_nodup : ∀ (l m : Dict), (m.map Prod.fst).Nodup →
    ((dictUpdate m l).map Prod.fst).Nodup
  | [], _, h => h
  | x :: l, m, h => dictUpdate_keys_nodup l _ (dictInsert_keys_nodup m x h)

/-- The strict key order: `keyLE` together with distinct keys. -/
def keyLT (a b : String × PyVal) : Prop := keyLE a b ∧ a.1 ≠ b.1

instance : IsAntisymm (String × PyVal) keyLT :=
  ⟨fun a b h1 h2 =>
    absurd (String.ext (lexLe_antisymm a.1.data b.1.data h1.1 h2.1)) h1.2⟩

theorem sorted_keyLT (l : Dict) (hs : List.Sorted keyLE l)
    (hnd : (l.map Prod.fst).Nodup) : List.Sorted keyLT l := by
  have h2 : List.Pairwise (fun a b : String × PyVal => a.1 ≠ b.1) l :=
    List.pairwise_map.mp hnd
  exact hs.and h2

theorem baseEntropy_keys (revision configDigest ty name : String)
    (srcs depFps : List String) :
    (baseEntropy revision configDigest ty name srcs depFps).map Prod.fst =
      ["blade_revision", "config", "type", "name", "srcs", "deps"] := rfl

theorem sortItems_eq_of_perm (d1 d2 : Dict) (h : d1.Perm d2)
    (hnd : (d1.map Prod.fst).Nodup) : sortItems d1 = sortItems d2 := by
  have hp : (sortItems d1).Perm (sortItems d2) :=
    (List.perm_insertionSort keyLE d1).trans
      (h.trans (List.perm_insertionSort keyLE d2).symm)
  have hnd1 : ((sortItems d1).map Prod.fst).Nodup :=
    (((List.perm_insertionSort keyLE d1).map Prod.fst).nodup_iff).mpr hnd
  have hnd2 : ((sortItems d2).map Prod.fst).Nodup :=
    ((hp.map Prod.fst).nodup_iff).mp hnd1
  exact List.eq_of_perm_of_sorted hp
    (sorted_keyLT _ (List.sorted_insertionSort keyLE d1) hnd1)
    (sorted_keyLT _ (List.sorted_insertionSort keyLE d2) hnd2)

/-- **C1** Fingerprint determinism: with identical type tag, name, source
list, configuration digest, blade revision and direct-dependency
fingerprints, two attribute mappings holding the same set of key/value
entries — in whatever insertion order — produce the same `fingerprint`
hash: the entropy record is serialized from `sorted(entropy.items())`, so
insertion order never affects the result. -/
theorem fingerprint_deterministic (revision configDigest ty name : String)
    (srcs depFps : List String) (attr1 attr2 : Dict)
    (hnd : (attr1.map Prod.fst).Nodup) (hperm : attr1.Perm attr2) :
    fingerprint revision configDigest ty name srcs depFps attr1 =
      fingerprint revision configDigest ty name srcs depFps attr2 := by
  unfold fingerprint
  rw [sortItems_eq_of_perm (dictUpdate (baseEntropy revision configDigest ty name srcs depFps) attr1)
    (dictUpdate (baseEntropy revision configDigest ty name srcs depFps) attr2)
    (dictUpdate_perm_arg attr1 attr2 hperm hnd _)
    (dictUpdate_keys_nodup attr1 _ (by rw [baseEntropy_keys]; decide))]

/-- Witness for C1: the same two attribute entries inserted in both orders
give one hash. -/
theorem fingerprint_deterministic_witness :
    (([("debug", PyVal.bool true), ("test_timeout", PyVal.int 60)] : Dict).map
        Prod.fst).Nodup ∧
    ([("debug", PyVal.bool true), ("test_timeout", PyVal.int 60)] : Dict).Perm
      [("test_timeout", PyVal.int 60), ("debug", PyVal.bool true)] ∧
    fingerprint "rev7" "cfg9" "cc_library" "util" ["a.cc", "b.cc"] ["f1", "f2"]
        [("debug", PyVal.bool true), ("test_timeout", PyVal.int 60)] =
      fingerprint "rev7" "cfg9" "cc_library" "util" ["a.cc", "b.cc"] ["f1", "f2"]
        [("test_timeout", PyVal.int 60), ("debug", PyVal.bool true)] :=
  ⟨by decide, by decide,
   fingerprint_deterministic "rev7" "cfg9" "cc_library" "util" ["a.cc", "b.cc"]
     ["f1", "f2"] [("debug", PyVal.bool true), ("test_timeout", PyVal.int 60)]
     [("test_timeout", PyVal.int 60), ("debug", PyVal.bool true)] (by decide) (by decide)⟩

end Blade
